import Mathlib

/-!
Verification of the Repak-Gui-Revamped mod-installer core.

The definitions below are shallow embeddings of the Rust sources:
 - `src/repak-gui/src/install_mod/install_mod_logic.rs`
   (`normalize_mod_base_name`, `record_installed_tags`,
   `install_mods_in_viewport`)
 - `src/repak-gui/src/install_mod/install_mod_logic/iotoc.rs`
   (`convert_to_iostore_directory`)
 - `src/oodle_loader/src/lib.rs` (`fetch_oodle`, `load_oodle`, `oodle`)

Strings are Lean `String`s; filesystem paths are lists of path components;
machine atomics become explicit state threading.
-/

namespace RepakSpec

/-! ### Reconciler: `normalize_mod_base_name` -/

/-- Rust `str::ends_with`: `suffix` is a suffix of `s` (character-wise). -/
def ends_with (s suffix : String) : Bool :=
  suffix.data.isSuffixOf s.data

/-- Rust `str::strip_suffix`: `some` of `s` without its suffix when the
suffix matches, `none` otherwise. -/
def rust_strip_suffix (s suffix : String) : Option String :=
  if suffix.data.isSuffixOf s.data then
    some (String.mk (s.data.take (s.data.length - suffix.data.length)))
  else none

/-- `normalize_mod_base_name` from `install_mod_logic.rs` lines 32-42:
keep a name already ending in `_9999999_P`; for a name ending in `_P`,
strip the `_P` and append `_9999999_P`; otherwise append `_9999999_P`. -/
def normalize_mod_base_name (name : String) : String :=
  if ends_with name "_9999999_P" then name
  else if ends_with name "_P" then
    ((rust_strip_suffix name "_P").getD name) ++ "_9999999_P"
  else name ++ "_9999999_P"

theorem isPrefixOf_eq_true_iff {α : Type} [BEq α] [LawfulBEq α] :
    ∀ (l₁ l₂ : List α), l₁.isPrefixOf l₂ = true ↔ l₁ <+: l₂
  | [], l₂ => by simp [List.isPrefixOf]
  | a :: as, [] => by simp [List.isPrefixOf]
  | a :: as, b :: bs => by
    simp only [List.isPrefixOf, Bool.and_eq_true, beq_iff_eq, List.cons_prefix_cons]
    exact and_congr Iff.rfl (isPrefixOf_eq_true_iff as bs)

theorem isSuffixOf_eq_true_iff (l₁ l₂ : List Char) :
    l₁.isSuffixOf l₂ = true ↔ l₁ <:+ l₂ := by
  rw [List.isSuffixOf, isPrefixOf_eq_true_iff, List.reverse_prefix]

theorem ends_with_iff (s suffix : String) :
    ends_with s suffix = true ↔ suffix.data <:+ s.data := by
  rw [ends_with, isSuffixOf_eq_true_iff]

theorem data_append (s t : String) : (s ++ t).data = s.data ++ t.data := rfl

theorem data_mk (l : List Char) : (String.mk l).data = l := rfl

theorem ends_with_append (s t : String) : ends_with (s ++ t) t = true := by
  rw [ends_with_iff, data_append]
  exact List.suffix_append s.data t.data

/-- Every output of the reconciler ends in the load-order suffix. -/
theorem normalize_ends_with_suffix (n : String) :
    ends_with (normalize_mod_base_name n) "_9999999_P" = true := by
  unfold normalize_mod_base_name
  split
  · assumption
  · split
    · exact ends_with_append _ _
    · exact ends_with_append _ _

example : normalize_mod_base_name "foo" = "foo_9999999_P" := by decide
example : normalize_mod_base_name "foo_P" = "foo_9999999_P" := by decide
example : normalize_mod_base_name "foo_9999999_P" = "foo_9999999_P" := by decide
example : normalize_mod_base_name "bar_P_P" = "bar_P_9999999_P" := by decide

theorem normalize_of_ends_suffix (s : String)
    (h : ends_with s "_9999999_P" = true) : normalize_mod_base_name s = s := by
  unfold normalize_mod_base_name
  simp [h]

theorem normalize_of_ends_P (n : String)
    (h9 : ends_with n "_9999999_P" = false) (hP : ends_with n "_P" = true) :
    normalize_mod_base_name n =
      String.mk (n.data.take (n.data.length - 2)) ++ "_9999999_P" := by
  have hP' : ("_P" : String).data.isSuffixOf n.data = true := hP
  have hlen : ("_P" : String).data.length = 2 := rfl
  unfold normalize_mod_base_name rust_strip_suffix
  simp only [h9, Bool.false_eq_true, if_false, hP, if_true, hP', hlen,
    Option.getD_some]

theorem suffix_append_cancel {a b c : List Char} (h : a ++ c <:+ b ++ c) :
    a <:+ b := by
  obtain ⟨t, ht⟩ := h
  rw [← List.append_assoc] at ht
  exact ⟨t, List.append_cancel_right ht⟩

theorem take_append_of_suffix {l₁ l₂ : List Char} (h : l₂ <:+ l₁) :
    l₁.take (l₁.length - l₂.length) ++ l₂ = l₁ := by
  obtain ⟨t, rfl⟩ := h
  rw [List.length_append, Nat.add_sub_cancel, List.take_left]

/-- C3: the suffix normalization is idempotent: applying
`normalize_mod_base_name` twice gives the same result as applying it once. -/
theorem claim_C3_normalize_idempotent (n : String) :
    normalize_mod_base_name (normalize_mod_base_name n) =
      normalize_mod_base_name n :=
  normalize_of_ends_suffix _ (normalize_ends_with_suffix n)

/-- C3 witness: idempotence evaluated at the concrete name `foo_P`. -/
theorem claim_C3_witness :
    normalize_mod_base_name (normalize_mod_base_name "foo_P") =
      normalize_mod_base_name "foo_P" :=
  claim_C3_normalize_idempotent "foo_P"

/-- C2 counterexample: `bar_P_P` ends in `_P`, yet its normalization
`bar_P_9999999_P` ends in `_P_9999999_P`, contradicting the claim that for
every name ending in `_P` the result never ends in `_P_9999999_P`. -/
theorem claim_C2_counterexample :
    ends_with "bar_P_P" "_P" = true ∧
    ends_with (normalize_mod_base_name "bar_P_P") "_P_9999999_P" = true := by
  decide

/-- C2 (amended): for every name `n` ending in `_P` that does not end in
`_P_P` and does not already end in `_P_9999999_P`, the normalized name ends
in `_9999999_P` and does not end in `_P_9999999_P`. -/
theorem claim_C2_amended (n : String)
    (hP : ends_with n "_P" = true)
    (hPP : ends_with n "_P_P" = false)
    (hP9 : ends_with n "_P_9999999_P" = false) :
    ends_with (normalize_mod_base_name n) "_9999999_P" = true ∧
    ends_with (normalize_mod_base_name n) "_P_9999999_P" = false := by
  refine ⟨normalize_ends_with_suffix n, ?_⟩
  cases h9 : ends_with n "_9999999_P" with
  | true => rw [normalize_of_ends_suffix n h9]; exact hP9
  | false =>
    rw [normalize_of_ends_P n h9 hP]
    refine Bool.eq_false_iff.mpr ?_
    intro hcon
    rw [ends_with_iff, data_append, data_mk] at hcon
    have hsplit : ("_P_9999999_P" : String).data =
        ("_P" : String).data ++ ("_9999999_P" : String).data := rfl
    rw [hsplit] at hcon
    have h1 : ("_P" : String).data <:+ n.data.take (n.data.length - 2) :=
      suffix_append_cancel hcon
    have h2 : n.data.take (n.data.length - 2) ++ ("_P" : String).data =
        n.data := by
      have := take_append_of_suffix ((ends_with_iff n "_P").mp hP)
      simpa using this
    obtain ⟨t, ht⟩ := h1
    have hPP' : ("_P_P" : String).data <:+ n.data := by
      have hs : ("_P_P" : String).data =
          ("_P" : String).data ++ ("_P" : String).data := rfl
      rw [← h2, ← ht, hs, List.append_assoc]
      exact ⟨t, rfl⟩
    rw [← ends_with_iff, hPP] at hPP'
    exact Bool.false_ne_true hPP'

/-- C2 witness: the amended claim evaluated at the concrete name `foo_P`. -/
theorem claim_C2_witness :
    ends_with (normalize_mod_base_name "foo_P") "_9999999_P" = true ∧
    ends_with (normalize_mod_base_name "foo_P") "_P_9999999_P" = false :=
  claim_C2_amended "foo_P" (by decide) (by decide) (by decide)

/-! ### Tag recording: `record_installed_tags`

The `PendingTagMap` JSON document (a `BTreeMap<String, Vec<String>>` on
disk) is modelled extensionally as a function from base names to the
persisted tag list, with absent keys mapping to the empty list (this is
exactly what `map.entry(k).or_default()` observes). -/

/-- The persisted pending-tag map. -/
def TagMap := String → List String

/-- Rust `Vec::dedup`: remove consecutive duplicate elements. -/
def dedup_adjacent : List String → List String
  | [] => []
  | [x] => [x]
  | x :: y :: rest =>
    if x = y then dedup_adjacent (y :: rest)
    else x :: dedup_adjacent (y :: rest)

/-- Rust `Vec::sort` on strings. Modelled as insertion sort over the
string order: for a linear order every sorting algorithm produces the same
(unique sorted) permutation, so this is observationally the same list
Rust's stable sort produces. -/
def sort_strings (l : List String) : List String :=
  List.insertionSort (· ≤ ·) l

/-- `record_installed_tags` from `install_mod_logic.rs` lines 44-66:
an empty tag list returns immediately; otherwise each new tag not already
present is pushed onto the entry for `base`, the entry is sorted and
deduplicated, and the map is written back. -/
def record_installed_tags (base : String) (tags : List String)
    (m : TagMap) : TagMap :=
  if tags.isEmpty then m
  else
    let entry := m base
    let entry := tags.foldl
      (fun e t => if e.contains t then e else e ++ [t]) entry
    let entry := dedup_adjacent (sort_strings entry)
    fun k => if k = base then entry else m k

theorem mem_fold_push (x : String) :
    ∀ (ts : List String) (e : List String),
      x ∈ ts.foldl (fun e t => if e.contains t then e else e ++ [t]) e ↔
        x ∈ e ∨ x ∈ ts
  | [], e => by simp
  | t :: ts, e => by
    rw [List.foldl_cons, mem_fold_push x ts]
    cases hc : e.contains t with
    | true =>
      obtain ⟨y, hy, he⟩ := List.contains_iff_exists_mem_beq.mp hc
      rw [beq_iff_eq] at he
      subst he
      rw [if_pos rfl]
      simp only [List.mem_cons]
      constructor
      · rintro (h | h)
        · exact Or.inl h
        · exact Or.inr (Or.inr h)
      · rintro (h | rfl | h)
        · exact Or.inl h
        · exact Or.inl hy
        · exact Or.inr h
    | false =>
      rw [if_neg (by simp)]
      simp only [List.mem_append, List.mem_singleton, List.mem_cons]
      tauto

theorem dedup_adjacent_sublist :
    ∀ l : List String, List.Sublist (dedup_adjacent l) l
  | [] => by simp [dedup_adjacent]
  | [x] => by simp [dedup_adjacent]
  | x :: y :: rest => by
    by_cases hxy : x = y
    · rw [dedup_adjacent, if_pos hxy]
      exact (dedup_adjacent_sublist (y :: rest)).cons x
    · rw [dedup_adjacent, if_neg hxy]
      exact (dedup_adjacent_sublist (y :: rest)).cons₂ x

theorem mem_dedup_adjacent (x : String) :
    ∀ (l : List String), x ∈ dedup_adjacent l ↔ x ∈ l
  | [] => by simp [dedup_adjacent]
  | [y] => by simp [dedup_adjacent]
  | y :: z :: rest => by
    by_cases hyz : y = z
    · rw [dedup_adjacent, if_pos hyz, mem_dedup_adjacent x (z :: rest)]
      subst hyz
      simp only [List.mem_cons]
      tauto
    · rw [dedup_adjacent, if_neg hyz, List.mem_cons,
        mem_dedup_adjacent x (z :: rest), ← List.mem_cons]

theorem dedup_adjacent_sorted {l : List String}
    (h : l.Sorted (· ≤ ·)) : (dedup_adjacent l).Sorted (· ≤ ·) :=
  h.sublist (dedup_adjacent_sublist l)

theorem dedup_adjacent_nodup :
    ∀ {l : List String}, l.Sorted (· ≤ ·) → (dedup_adjacent l).Nodup
  | [], _ => by simp [dedup_adjacent]
  | [x], _ => by simp [dedup_adjacent]
  | x :: y :: rest, h => by
    have hx : ∀ z ∈ y :: rest, x ≤ z := (List.sorted_cons.mp h).1
    have h' : (y :: rest).Sorted (· ≤ ·) := (List.sorted_cons.mp h).2
    by_cases hxy : x = y
    · rw [dedup_adjacent, if_pos hxy]
      exact dedup_adjacent_nodup h'
    · rw [dedup_adjacent, if_neg hxy]
      refine List.nodup_cons.mpr ⟨?_, dedup_adjacent_nodup h'⟩
      intro hmem
      rcases List.mem_cons.mp ((mem_dedup_adjacent x (y :: rest)).mp hmem)
        with rfl | hr
      · exact hxy rfl
      · have hyx : y ≤ x := (List.sorted_cons.mp h').1 x hr
        have hxy' : x ≤ y := hx y (List.mem_cons_self y rest)
        exact hxy (le_antisymm hxy' hyx)

theorem sort_strings_sorted (l : List String) :
    (sort_strings l).Sorted (· ≤ ·) :=
  List.sorted_insertionSort (· ≤ ·) l

theorem mem_sort_strings {x : String} {l : List String} :
    x ∈ sort_strings l ↔ x ∈ l :=
  (List.perm_insertionSort (· ≤ ·) l).mem_iff

/-- C8: recording an empty tag list leaves the pending-tag map untouched;
recording a non-empty list makes the persisted list for the base name
sorted, duplicate-free, and equal (as a set) to the union of the
previously persisted tags and the new tags. -/
theorem claim_C8_record_installed_tags (base : String) (tags : List String)
    (m : TagMap) :
    record_installed_tags base [] m = m ∧
    (tags ≠ [] →
      (record_installed_tags base tags m base).Sorted (· ≤ ·) ∧
      (record_installed_tags base tags m base).Nodup ∧
      ∀ t, t ∈ record_installed_tags base tags m base ↔
        t ∈ m base ∨ t ∈ tags) := by
  constructor
  · rfl
  · intro h
    have hne : tags.isEmpty = false := by
      cases tags with
      | nil => exact absurd rfl h
      | cons a l => rfl
    have hrec : record_installed_tags base tags m base =
        dedup_adjacent (sort_strings (tags.foldl
          (fun e t => if e.contains t then e else e ++ [t]) (m base))) := by
      unfold record_installed_tags
      rw [hne]
      simp
    rw [hrec]
    refine ⟨dedup_adjacent_sorted (sort_strings_sorted _),
      dedup_adjacent_nodup (sort_strings_sorted _), ?_⟩
    intro t
    rw [mem_dedup_adjacent, mem_sort_strings, mem_fold_push]

/-- C8 witness: the claim at base `X`, tags `["B","A","A"]` (the first
call of the spec's merge scenario) and the empty map. -/
theorem claim_C8_witness :
    record_installed_tags "X" [] (fun _ => []) = (fun _ => []) ∧
    (record_installed_tags "X" ["B", "A", "A"] (fun _ => []) "X").Sorted
        (· ≤ ·) ∧
    (record_installed_tags "X" ["B", "A", "A"] (fun _ => []) "X").Nodup ∧
    (∀ t, t ∈ record_installed_tags "X" ["B", "A", "A"] (fun _ => []) "X" ↔
      t ∈ (fun _ => ([] : List String)) "X" ∨ t ∈ ["B", "A", "A"]) :=
  ⟨(claim_C8_record_installed_tags "X" ["B", "A", "A"] (fun _ => [])).1,
    (claim_C8_record_installed_tags "X" ["B", "A", "A"] (fun _ => [])).2
      (by simp)⟩

/-! ### Directory → IoStore conversion: `convert_to_iostore_directory`

Filesystem paths are modelled as lists of path components.  A staged
source directory is modelled by the list of relative (component-list)
paths of the files it contains. -/

/-- `InstallableMod` (the unit of work), from `src/repak-gui/src/install_mod`.
Only the fields the installer logic reads are modelled; `path_hash_seed`
and `mount_point` are carried opaquely. -/
structure InstallableMod where
  mod_name : String
  mod_type : String
  enabled : Bool
  iostore : Bool
  repak : Bool
  is_dir : Bool
  fix_mesh : Bool
  fix_textures : Bool
  custom_tags : List String
  mount_point : String
  path_hash_seed : Nat
deriving DecidableEq

/-- Modelled from the spec: `collect_files` (in `src/repak-gui/src/utils.rs`,
which is not among the provided sources) enumerates all files under the
source directory.  With the directory modelled by its list of relative
file paths, the enumerated absolute paths are the relative paths prefixed
by the directory path. -/
def collect_files (dir : List String) (relFiles : List (List String)) :
    List (List String) :=
  relFiles.map (fun r => dir ++ r)

/-- Rust `Path::strip_prefix` on component lists: remove `base` from the
front of `p` when it is a prefix, otherwise fail (the source calls
`.expect`, i.e. panics, on failure). -/
def path_strip_parent (base p : List String) : Option (List String) :=
  if base.isPrefixOf p then some (p.drop base.length) else none

/-- `path_slash::PathExt::to_slash`: join the components with `/`. -/
def to_slash (p : List String) : String :=
  String.intercalate "/" p

/-- One logical entry of the companion PAK: its name, whether
`build_entry` was asked to compress it, and its payload. -/
structure PakEntry where
  name : String
  compressed : Bool
  data : String
deriving DecidableEq

/-- Result of `convert_to_iostore_directory` as far as the companion PAK
is concerned: the Audio/Movies fallback repacks a plain PAK (no
`chunknames` companion); a failed `strip_prefix` panics; otherwise the
companion PAK is written with the given entries. -/
inductive ConvertPakResult
  | repakFallback
  | panicked
  | iostorePak (entries : List PakEntry)
deriving DecidableEq

/-- The companion-PAK construction of `convert_to_iostore_directory`
(`iotoc.rs` lines 21-116): Audio/Movies mods are repacked without an
IoStore pair; otherwise all files are collected, their paths relativized
(`strip_prefix` + `to_slash`), and a single uncompressed entry named
`chunknames` with the LF-joined relative paths is written. -/
def convert_to_iostore_directory (pak : InstallableMod)
    (to_pak_dir : List String) (relFiles : List (List String)) :
    ConvertPakResult :=
  if pak.mod_type = "Audio" ∨ pak.mod_type = "Movies" then .repakFallback
  else
    let paths := collect_files to_pak_dir relFiles
    match paths.mapM (path_strip_parent to_pak_dir) with
    | none => .panicked
    | some rels =>
      let rel_paths := rels.map to_slash
      .iostorePak [⟨"chunknames", false, String.intercalate "\n" rel_paths⟩]

theorem collect_mapM (dir : List String) :
    ∀ rels : List (List String),
      (collect_files dir rels).mapM (path_strip_parent dir) = some rels
  | [] => rfl
  | r :: rs => by
    have hp : (dir.isPrefixOf (dir ++ r)) = true := by
      rw [isPrefixOf_eq_true_iff]
      exact List.prefix_append dir r
    have h1 : path_strip_parent dir (dir ++ r) = some r := by
      rw [path_strip_parent, if_pos hp, List.drop_left]
    have h2 := collect_mapM dir rs
    rw [collect_files] at h2 ⊢
    rw [List.map_cons, List.mapM_cons, h1, h2]
    rfl

/-- C1: for every directory converted to IoStore (mod type neither Audio
nor Movies), the companion PAK holds exactly one entry, named
`chunknames`, uncompressed, whose payload is the LF-joined
slash-normalized relative paths of the directory's files (no trailing
newline); for an empty directory the payload is the empty string. -/
theorem claim_C1_companion_pak (m : InstallableMod) (dir : List String)
    (rels : List (List String))
    (hA : m.mod_type ≠ "Audio") (hM : m.mod_type ≠ "Movies") :
    convert_to_iostore_directory m dir rels =
      .iostorePak [⟨"chunknames", false,
        String.intercalate "\n" (rels.map to_slash)⟩] ∧
    convert_to_iostore_directory m dir [] =
      .iostorePak [⟨"chunknames", false, ""⟩] := by
  have hcond : ¬ (m.mod_type = "Audio" ∨ m.mod_type = "Movies") := by
    rintro (h | h)
    · exact hA h
    · exact hM h
  have hmain : ∀ rs : List (List String),
      convert_to_iostore_directory m dir rs =
        .iostorePak [⟨"chunknames", false,
          String.intercalate "\n" (rs.map to_slash)⟩] := by
    intro rs
    unfold convert_to_iostore_directory
    rw [if_neg hcond]
    simp only [collect_mapM]
  exact ⟨hmain rels, (hmain []).trans rfl⟩

/-- C1 witness: the spec's IoStore-install scenario, a staging directory
with `Meshes/A.uasset`, `Meshes/A.uexp`, `Textures/T.uasset`. -/
theorem claim_C1_witness :
    convert_to_iostore_directory
        ⟨"base", "Character", true, false, false, true, false, false, [],
          "../../../", 0⟩
        ["stage"]
        [["Meshes", "A.uasset"], ["Meshes", "A.uexp"],
          ["Textures", "T.uasset"]] =
      .iostorePak [⟨"chunknames", false,
        String.intercalate "\n"
          ([["Meshes", "A.uasset"], ["Meshes", "A.uexp"],
            ["Textures", "T.uasset"]].map to_slash)⟩] ∧
    convert_to_iostore_directory
        ⟨"base", "Character", true, false, false, true, false, false, [],
          "../../../", 0⟩
        ["stage"] [] =
      .iostorePak [⟨"chunknames", false, ""⟩] :=
  claim_C1_companion_pak
    ⟨"base", "Character", true, false, false, true, false, false, [],
      "../../../", 0⟩
    ["stage"]
    [["Meshes", "A.uasset"], ["Meshes", "A.uexp"], ["Textures", "T.uasset"]]
    (by decide) (by decide)

example :
    convert_to_iostore_directory
        ⟨"base", "Character", true, false, false, true, false, false, [],
          "../../../", 0⟩
        ["stage"]
        [["Meshes", "A.uasset"], ["Meshes", "A.uexp"],
          ["Textures", "T.uasset"]] =
      .iostorePak [⟨"chunknames", false,
        "Meshes/A.uasset\nMeshes/A.uexp\nTextures/T.uasset"⟩] := by
  decide

example :
    convert_to_iostore_directory
        ⟨"base", "Character", true, false, false, true, false, false, [],
          "../../../", 0⟩ ["stage"] [] =
      .iostorePak [⟨"chunknames", false, ""⟩] := by
  decide

example :
    convert_to_iostore_directory
        ⟨"base", "Audio", true, false, false, true, false, false, [],
          "../../../", 0⟩ ["stage"] [["x.wem"]] = .repakFallback := by
  decide

/-! ### Installer orchestrator: `install_mods_in_viewport`

The per-mod dispatch (lines 74-138 of `install_mod_logic.rs`) is embedded
as a function from the mod's flags and an environment — the outcomes of
the external filesystem/packing operations — to the list of strategy
branches executed, the total added to the shared progress counter, and
whether the iteration panics. -/

/-- The four installation strategies the orchestrator can run. -/
inductive Strategy
  | iostoreCopy
  | repackFromPak
  | directCopy
  | convertDir
deriving DecidableEq

/-- Outcome of one fallible external operation: `Ok`, a returned (and
logged) `Err`, or a panic inside the callee. -/
inductive Outcome
  | ok
  | err
  | panicked
deriving DecidableEq

/-- Per-mod environment.  `repak_ok` is the outcome of
`create_repak_from_pak` (its body lives in `pak_files.rs`, not among the
provided sources; modelled from the spec, which says a successful repack
increments the progress counter once and a failure is logged).  `copy_ok`
is the outcome of the direct-path `fs::copy`.  `convert` is the outcome
of `convert_to_iostore_directory`, which may return `Err` (logged by the
caller) or panic on its internal `.expect`/`.unwrap` calls; per the
source (`iotoc.rs` line 114) and the spec it increments the counter once
on success. -/
structure ModEnv where
  repak_ok : Bool
  copy_ok : Bool
  convert : Outcome
deriving DecidableEq

/-- One loop iteration of `install_mods_in_viewport` for an enabled,
non-cancelled mod: `(strategies run, counter increments, panicked)`.
Faithful to the control flow: the `iostore` branch `continue`s; the
`repak` branch does *not* `continue` and falls through; the direct-copy
branch (`!repak && !is_dir`) calls `.unwrap()` on `fs::copy`, so a copy
failure panics; the `is_dir` branch runs the conversion.  The iostore
triple copy logs per-file copy errors and never touches the counter. -/
def installOne (m : InstallableMod) (env : ModEnv) :
    List Strategy × Int × Bool :=
  if m.iostore = true then ([.iostoreCopy], 0, false)
  else
    let repakPart : List Strategy × Int :=
      if m.repak = true then
        ([.repackFromPak], if env.repak_ok = true then 1 else 0)
      else ([], 0)
    if m.repak = false ∧ m.is_dir = false then
      if env.copy_ok = true then
        (repakPart.1 ++ [.directCopy], repakPart.2 + 1, false)
      else (repakPart.1 ++ [.directCopy], repakPart.2, true)
    else if m.is_dir = true then
      match env.convert with
      | .ok => (repakPart.1 ++ [.convertDir], repakPart.2 + 1, false)
      | .err => (repakPart.1 ++ [.convertDir], repakPart.2, false)
      | .panicked => (repakPart.1 ++ [.convertDir], repakPart.2, true)
    else (repakPart.1, repakPart.2, false)

/-- Final state of one `install_mods_in_viewport` run: the value left in
the shared counter, whether the final `store(-255)` executed, the
executed strategy branches tagged with their mod index, and whether the
installer thread panicked. -/
structure BatchResult where
  counterFinal : Int
  sentinel : Bool
  log : List (Nat × Strategy)
  panicked : Bool
deriving DecidableEq

/-- `install_mods_in_viewport` (lines 18-142): iterate over the mods,
skipping disabled ones, polling the shared `stop_thread` flag before each
enabled mod (`cancel i` is the flag's value at poll `i`; `break` on
cancellation), dispatching strategies, and finally storing the `-255`
sentinel into the counter — unless a panic aborted the thread first. -/
def install_mods_in_viewport (cancel : Nat → Bool) :
    Nat → Int → List (InstallableMod × ModEnv) → BatchResult
  | _, _, [] => ⟨-255, true, [], false⟩
  | i, c, (m, env) :: rest =>
    if m.enabled = false then install_mods_in_viewport cancel (i + 1) c rest
    else if cancel i then ⟨-255, true, [], false⟩
    else if (installOne m env).2.2 = true then
      ⟨c + (installOne m env).2.1, false,
        (installOne m env).1.map (fun s => (i, s)), true⟩
    else
      ⟨(install_mods_in_viewport cancel (i + 1)
          (c + (installOne m env).2.1) rest).counterFinal,
        (install_mods_in_viewport cancel (i + 1)
          (c + (installOne m env).2.1) rest).sentinel,
        (installOne m env).1.map (fun s => (i, s)) ++
          (install_mods_in_viewport cancel (i + 1)
            (c + (installOne m env).2.1) rest).log,
        (install_mods_in_viewport cancel (i + 1)
          (c + (installOne m env).2.1) rest).panicked⟩

/-- C4 counterexample: an enabled mod with `repak = true` and
`is_dir = true` (the flag combination the spec's own ingest policy
assigns to directories) is processed by *both* the repack branch and the
directory-conversion branch in one pass, so the strategies are not
disjoint as claimed. -/
theorem claim_C4_counterexample :
    (installOne
        ⟨"m", "Character", true, false, true, true, false, false, [], "", 0⟩
        ⟨true, true, .ok⟩).1 =
      [.repackFromPak, .convertDir] := by
  decide

/-- C4 (amended): for every enabled mod that does not have both `repak`
and `is_dir` set, exactly one strategy branch executes. -/
theorem claim_C4_amended (m : InstallableMod) (env : ModEnv)
    (h : ¬(m.repak = true ∧ m.is_dir = true)) :
    (installOne m env).1.length = 1 := by
  unfold installOne
  cases hio : m.iostore with
  | true => rfl
  | false =>
    cases hrp : m.repak with
    | true =>
      cases hid : m.is_dir with
      | true => exact absurd ⟨hrp, hid⟩ h
      | false => simp
    | false =>
      cases hid : m.is_dir with
      | false => cases hcp : env.copy_ok <;> simp
      | true => cases hcv : env.convert <;> simp

/-- C4 witness: the amended claim at a concrete repak-only mod. -/
theorem claim_C4_witness :
    (installOne
        ⟨"m", "Character", true, false, true, false, false, false, [], "", 0⟩
        ⟨true, true, .ok⟩).1.length = 1 :=
  claim_C4_amended _ _ (by decide)

/-- C5: the direct-copy path calls `.unwrap()` on `fs::copy`
(`install_mod_logic.rs` line 119-120), so a failed copy panics the
installer thread: the second mod of this batch is never processed and the
completion sentinel is never stored, contradicting the log-and-continue
claim.  Evaluation of the embedded orchestrator at the failing input. -/
theorem claim_C5_direct_copy_panic_aborts_batch :
    install_mods_in_viewport (fun _ => false) 0 0
      [(⟨"a", "Character", true, false, false, false, false, false, [],
          "", 0⟩, ⟨true, false, .ok⟩),
       (⟨"b", "Character", true, false, false, false, false, false, [],
          "", 0⟩, ⟨true, true, .ok⟩)] =
      ⟨0, false, [(0, .directCopy)], true⟩ := by
  decide

example :
    install_mods_in_viewport (fun _ => false) 0 0
      [(⟨"a", "Character", true, false, true, false, false, false, [],
          "", 0⟩, ⟨false, true, .ok⟩),
       (⟨"b", "Character", true, false, false, false, false, false, [],
          "", 0⟩, ⟨true, true, .ok⟩)] =
      ⟨-255, true, [(0, .repackFromPak), (1, .directCopy)], false⟩ := by
  decide

/-- C6 counterexample: a mod installed by the iostore triple copy — all
three file copies succeeding — adds `0`, not `1`, to the progress
counter: the iostore branch never touches `installed_mods_ptr`. -/
theorem claim_C6_counterexample :
    (installOne
        ⟨"m", "Character", true, true, false, false, false, false, [], "", 0⟩
        ⟨true, true, .ok⟩).2.1 = 0 := by
  decide

/-- C6 (amended): for every successfully installed mod using a single
strategy other than the iostore triple copy — repack, direct copy, or
directory-to-IoStore conversion — the shared progress counter is
incremented by exactly 1 (and the iteration does not panic).  The
iostore triple copy does not increment the counter. -/
theorem claim_C6_amended (m : InstallableMod) (env : ModEnv)
    (hio : m.iostore = false)
    (hnd : ¬(m.repak = true ∧ m.is_dir = true))
    (hrp : m.repak = true → env.repak_ok = true)
    (hcp : m.repak = false ∧ m.is_dir = false → env.copy_ok = true)
    (hcv : m.is_dir = true → env.convert = .ok) :
    (installOne m env).2.1 = 1 ∧ (installOne m env).2.2 = false := by
  unfold installOne
  cases hrpb : m.repak with
  | true =>
    cases hid : m.is_dir with
    | true => exact absurd ⟨hrpb, hid⟩ hnd
    | false => simp [hio, hrp hrpb]
  | false =>
    cases hid : m.is_dir with
    | false => simp [hio, hcp ⟨hrpb, hid⟩]
    | true => simp [hio, hcv hid]

/-- C6 witness: the amended claim at a concrete successful repack mod. -/
theorem claim_C6_witness :
    (installOne
        ⟨"m", "Character", true, false, true, false, false, false, [], "", 0⟩
        ⟨true, true, .ok⟩).2.1 = 1 ∧
    (installOne
        ⟨"m", "Character", true, false, true, false, false, false, [], "", 0⟩
        ⟨true, true, .ok⟩).2.2 = false :=
  claim_C6_amended _ _ (by decide) (by decide) (fun _ => by decide)
    (fun h => absurd h.1 (by decide)) (fun h => absurd h (by decide))

/-- Whenever no iteration panics, the run ends with the sentinel store:
the counter is left at `-255` — after all mods, after logged per-mod
failures, and after observed cancellation alike. -/
theorem sentinel_of_no_panic (cancel : Nat → Bool) :
    ∀ (i : Nat) (c : Int) (mods : List (InstallableMod × ModEnv)),
      (install_mods_in_viewport cancel i c mods).panicked = false →
      (install_mods_in_viewport cancel i c mods).sentinel = true ∧
      (install_mods_in_viewport cancel i c mods).counterFinal = -255
  | _, _, [] => fun _ => ⟨rfl, rfl⟩
  | i, c, (m, env) :: rest => by
    intro hnp
    unfold install_mods_in_viewport at hnp ⊢
    by_cases hen : m.enabled = false
    · rw [if_pos hen] at hnp ⊢
      exact sentinel_of_no_panic cancel (i + 1) c rest hnp
    · rw [if_neg hen] at hnp ⊢
      by_cases hcn : cancel i = true
      · rw [if_pos hcn] at hnp ⊢
        exact ⟨rfl, rfl⟩
      · rw [if_neg hcn] at hnp ⊢
        by_cases hpk : (installOne m env).2.2 = true
        · rw [if_pos hpk] at hnp
          simp at hnp
        · rw [if_neg hpk] at hnp ⊢
          have hnp' : (install_mods_in_viewport cancel (i + 1)
              (c + (installOne m env).2.1) rest).panicked = false := hnp
          obtain ⟨h1, h2⟩ :=
            sentinel_of_no_panic cancel (i + 1) (c + (installOne m env).2.1)
              rest hnp'
          exact ⟨h1, h2⟩

/-- C7: evaluation at the failing input — a single direct-copy mod whose
`fs::copy` fails panics the thread before the final `store(-255)`
executes: the batch terminates with the counter at `0` and the sentinel
never stored, contradicting the claim that the sentinel is always
stored on termination. -/
theorem claim_C7_panic_skips_sentinel :
    install_mods_in_viewport (fun _ => false) 0 0
      [(⟨"a", "Character", true, false, false, false, false, false, [],
          "", 0⟩, ⟨true, false, .ok⟩)] =
      ⟨0, false, [(0, .directCopy)], true⟩ := by
  decide

example :
    install_mods_in_viewport (fun i => i ≥ 1) 0 0
      [(⟨"a", "Character", true, false, false, false, false, false, [],
          "", 0⟩, ⟨true, true, .ok⟩),
       (⟨"b", "Character", true, false, false, false, false, false, [],
          "", 0⟩, ⟨true, true, .ok⟩)] =
      ⟨-255, true, [(0, .directCopy)], false⟩ := by
  decide

/-! ### Oodle loader: `fetch_oodle`, `load_oodle`, `oodle`

From `src/oodle_loader/src/lib.rs`.  The filesystem is a map from path
strings to file contents (byte lists); `libloading` and the dynamic
symbol lookups are oracles supplied by a `LoaderEnv`.  The
`OnceLock<Option<Oodle>>` becomes an explicit three-state cell. -/

/-- The `oodle_loader::Error` kinds (lib.rs lines 119-131).  Foreign
error payloads are abstracted to numeric codes. -/
inductive OodleError
  | hashMismatch (expected found : String)
  | compressionFailed
  | initializationFailed
  | ioErr (code : Nat)
  | libLoading (code : Nat)
deriving DecidableEq

/-- A filesystem: path → file contents, `none` when absent. -/
def FileSys := String → Option (List Nat)

/-- The platform-bound library file name (Linux build). -/
def oodlePlatformName : String := "liboo2corelinux64.so.9"

/-- Environment for one loader call: whether `current_exe` resolves, the
executable's directory, the embedded library bytes, whether the
extraction write succeeds, and oracles for `libloading::Library::new`
(which sees the loaded file's contents) and the three symbol lookups. -/
structure LoaderEnv where
  current_exe_ok : Bool
  exe_dir : String
  embedded : List Nat
  write_ok : Bool
  lib_new : String → Option (List Nat) → Except Nat Nat
  sym_compress : Nat → Except Nat Nat
  sym_decompress : Nat → Except Nat Nat
  sym_buffer_size : Nat → Except Nat Nat

/-- `current_exe()?.with_file_name(OODLE_PLATFORM.name)`. -/
def oodle_lib_path (env : LoaderEnv) : String :=
  env.exe_dir ++ "/" ++ oodlePlatformName

/-- `fetch_oodle` (lib.rs 134-143): resolve the expected library path next
to the executable; only when no file exists there, write the embedded
bytes; return the (possibly updated) filesystem and the path.  No hash of
an existing file is computed. -/
def fetch_oodle (env : LoaderEnv) (fs : FileSys) :
    Except OodleError (FileSys × String) :=
  if env.current_exe_ok = false then .error (.ioErr 0)
  else
    match fs (oodle_lib_path env) with
    | some _ => .ok (fs, oodle_lib_path env)
    | none =>
      if env.write_ok = true then
        .ok (fun p => if p = oodle_lib_path env then some env.embedded
          else fs p, oodle_lib_path env)
      else .error (.ioErr 1)

/-- The resolved codec handle (lib.rs 145-150): the library plus its
three entry points, abstracted to identifiers. -/
structure Oodle where
  library : Nat
  compress : Nat
  decompress : Nat
  get_compressed_buffer_size_needed : Nat
deriving DecidableEq

/-- `load_oodle` (lib.rs 214-226): fetch the library file, load it with
`libloading`, resolve `OodleLZ_Compress`, `OodleLZ_Decompress`,
`OodleLZ_GetCompressedBufferSizeNeeded`.  Every failure is an `ioErr` or
`libLoading` error propagated by `?`. -/
def load_oodle (env : LoaderEnv) (fs : FileSys) :
    Except OodleError (FileSys × Oodle) :=
  match fetch_oodle env fs with
  | .error e => .error e
  | .ok (fs', path) =>
    match env.lib_new path (fs' path) with
    | .error e => .error (.libLoading e)
    | .ok h =>
      match env.sym_compress h with
      | .error e => .error (.libLoading e)
      | .ok c =>
        match env.sym_decompress h with
        | .error e => .error (.libLoading e)
        | .ok d =>
          match env.sym_buffer_size h with
          | .error e => .error (.libLoading e)
          | .ok g => .ok (fs', ⟨h, c, d, g⟩)

/-- The `static OODLE: OnceLock<Option<Oodle>>` cell. -/
inductive OodleCell
  | uninit
  | failed
  | ready (o : Oodle)
deriving DecidableEq

/-- One call to `oodle()` (lib.rs 228-245): on an uninitialized cell run
`load_oodle`, caching `Some`/`None` and returning the live handle or the
underlying error; on a previously failed cell return
`InitializationFailed`; on a ready cell return the cached handle.  The
third component records whether `load_oodle` — i.e. any file extraction,
library loading or symbol lookup — ran during this call. -/
def oodle_call (env : LoaderEnv) (fs : FileSys) :
    OodleCell → OodleCell × Except OodleError Oodle × Bool
  | .uninit =>
    match load_oodle env fs with
    | .error e => (.failed, .error e, true)
    | .ok (_, o) => (.ready o, .ok o, true)
  | .failed => (.failed, .error .initializationFailed, false)
  | .ready o => (.ready o, .ok o, false)

/-- A sequence of `oodle()` calls from a given cell state, each with its
own environment and filesystem; returns each call's result and whether it
performed initialization I/O. -/
def oodle_run : OodleCell → List (LoaderEnv × FileSys) →
    List (Except OodleError Oodle × Bool)
  | _, [] => []
  | s, (env, fs) :: calls =>
    (oodle_call env fs s).2 :: oodle_run (oodle_call env fs s).1 calls

theorem oodle_run_failed :
    ∀ calls : List (LoaderEnv × FileSys),
      oodle_run .failed calls =
        calls.map (fun _ => (.error .initializationFailed, false))
  | [] => rfl
  | (env, fs) :: calls => by
    have hc : oodle_call env fs .failed =
        (.failed, .error .initializationFailed, false) := rfl
    rw [oodle_run, hc, List.map_cons, oodle_run_failed calls]

theorem oodle_run_ready (o : Oodle) :
    ∀ calls : List (LoaderEnv × FileSys),
      oodle_run (.ready o) calls = calls.map (fun _ => (.ok o, false))
  | [] => rfl
  | (env, fs) :: calls => by
    have hc : oodle_call env fs (.ready o) = (.ready o, .ok o, false) := rfl
    rw [oodle_run, hc, List.map_cons, oodle_run_ready o calls]

/-- C9: codec initialization is single-shot with a cached outcome.  If the
first `oodle()` call's `load_oodle` fails with `e`, that call returns `e`
itself and every subsequent call — whatever its environment — returns
`InitializationFailed` with no I/O re-attempted.  If the first call
succeeds with handle `o`, every subsequent call returns the same handle
with no I/O. -/
theorem claim_C9_single_shot (env : LoaderEnv) (fs : FileSys)
    (calls : List (LoaderEnv × FileSys)) :
    oodle_run .uninit ((env, fs) :: calls) =
      match load_oodle env fs with
      | .error e =>
        (.error e, true) ::
          calls.map (fun _ => (.error .initializationFailed, false))
      | .ok (_, o) => (.ok o, true) :: calls.map (fun _ => (.ok o, false)) := by
  cases hl : load_oodle env fs with
  | error e =>
    rw [oodle_run]
    have hc : oodle_call env fs .uninit = (.failed, .error e, true) := by
      rw [oodle_call, hl]
    rw [hc, oodle_run_failed]
  | ok pr =>
    obtain ⟨fs', o⟩ := pr
    rw [oodle_run]
    have hc : oodle_call env fs .uninit = (.ready o, .ok o, true) := by
      rw [oodle_call, hl]
    rw [hc, oodle_run_ready]

/-- A loader environment whose `current_exe` lookup fails, and a second,
fully healthy environment: used to witness that the second call does not
retry even when it would succeed. -/
def envBroken : LoaderEnv :=
  ⟨false, "/opt", [1, 2, 3], true, fun _ _ => .ok 7, fun _ => .ok 1,
    fun _ => .ok 2, fun _ => .ok 3⟩

def envHealthy : LoaderEnv :=
  ⟨true, "/opt", [1, 2, 3], true, fun _ _ => .ok 7, fun _ => .ok 1,
    fun _ => .ok 2, fun _ => .ok 3⟩

def fsEmpty : FileSys := fun _ => none

example :
    oodle_run .uninit [(envBroken, fsEmpty), (envHealthy, fsEmpty)] =
      [(.error (.ioErr 0), true), (.error .initializationFailed, false)] :=
  rfl

example :
    oodle_run .uninit [(envHealthy, fsEmpty), (envBroken, fsEmpty)] =
      [(.ok ⟨7, 1, 2, 3⟩, true), (.ok ⟨7, 1, 2, 3⟩, false)] :=
  rfl

theorem fetch_oodle_error_cases (env : LoaderEnv) (fs : FileSys)
    (ex : OodleError) (h : fetch_oodle env fs = .error ex) :
    ex = .ioErr 0 ∨ ex = .ioErr 1 := by
  unfold fetch_oodle at h
  by_cases hc : env.current_exe_ok = false
  · rw [if_pos hc] at h
    exact Or.inl (Except.error.inj h).symm
  · rw [if_neg hc] at h
    cases hm : fs (oodle_lib_path env) with
    | some b =>
      rw [hm] at h
      exact absurd h (by simp)
    | none =>
      rw [hm] at h
      by_cases hw : env.write_ok = true
      · rw [if_pos hw] at h
        exact absurd h (by simp)
      · rw [if_neg hw] at h
        exact Or.inr (Except.error.inj h).symm

theorem load_oodle_no_hashMismatch (env : LoaderEnv) (fs : FileSys)
    (e f : String) : load_oodle env fs ≠ .error (.hashMismatch e f) := by
  intro hcon
  unfold load_oodle at hcon
  split at hcon
  · rename_i ex hf
    have hex : ex = .hashMismatch e f := Except.error.inj hcon
    rcases fetch_oodle_error_cases env fs ex hf with h | h <;> simp [h] at hex
  · split at hcon
    · simp at hcon
    · split at hcon
      · simp at hcon
      · split at hcon
        · simp at hcon
        · split at hcon
          · simp at hcon
          · simp at hcon

/-- C10: when a file with the platform's expected library name already
exists next to the executable, `fetch_oodle` returns with the filesystem
unchanged (the embedded bytes are written only when no such file exists),
so the existing file's contents are loaded as-is; and no initialization
outcome is ever the `HashMismatch` error, for any environment and
filesystem. -/
theorem claim_C10_existing_lib_untouched (env : LoaderEnv) (fs : FileSys)
    (b : List Nat) (hex : fs (oodle_lib_path env) = some b)
    (hok : env.current_exe_ok = true) :
    fetch_oodle env fs = .ok (fs, oodle_lib_path env) ∧
    ∀ (env' : LoaderEnv) (fs' : FileSys) (e f : String),
      load_oodle env' fs' ≠ .error (.hashMismatch e f) := by
  constructor
  · unfold fetch_oodle
    rw [if_neg (by simp [hok]), hex]
  · intro env' fs' e f
    exact load_oodle_no_hashMismatch env' fs' e f

/-- C10 witness: a filesystem already holding the expected library file
next to the executable (with contents `[9]`) is returned unchanged. -/
theorem claim_C10_witness :
    fetch_oodle envHealthy
        (fun p => if p = oodle_lib_path envHealthy then some [9]
          else none) =
      .ok ((fun p => if p = oodle_lib_path envHealthy then some [9]
          else none), oodle_lib_path envHealthy) ∧
    ∀ (env' : LoaderEnv) (fs' : FileSys) (e f : String),
      load_oodle env' fs' ≠ .error (.hashMismatch e f) :=
  claim_C10_existing_lib_untouched envHealthy _ [9] (by simp) rfl

end RepakSpec
